import Mathlib

/-!
Verification of the sky_tonight scheduling core.

Shallow embedding of custom_components/sky_tonight: entity.py (the
CelestialBody state machine: update_events, update_body_position,
update_location, the phase classifier and the _PHASE_UPDATES table) and
skyfield_helper.py (get_astral_event_next, get_astral_position).

Time is modelled in minutes as a rational number; the skyfield/astral
collaborators are modelled as an abstract Ephem record of oracles, since
their internals are outside the scheduling core.
-/

namespace SkyTonight

/-- Instants and durations, in minutes (UTC). -/
abbrev Time := ℚ

/-- Opaque identity of an astral Location together with the observer
elevation; update_location compares locations for equality. -/
abbrev Loc := ℕ

/-- The two event kinds passed to get_astral_event_next
(SUN_EVENT_SUNRISE / SUN_EVENT_SUNSET). -/
inductive SunEvent
  | sunrise
  | sunset
deriving DecidableEq, Repr

/-- The six sky phases of entity.py. -/
inductive Phase
  | night
  | astronomical_twilight
  | nautical_twilight
  | twilight
  | small_day
  | day
deriving DecidableEq, Repr

/-- The _PHASE_UPDATES table of entity.py, lines 64-71, in minutes. -/
def PHASE_UPDATES : Phase → ℚ
  | .night => 4 * 5
  | .astronomical_twilight => 4 * 2
  | .nautical_twilight => 4
  | .twilight => 2
  | .small_day => 2
  | .day => 4

/-- The external collaborators: skyfield find_risings / find_settings over
a search window, the apparent altitude/azimuth of the body at an instant,
and astral Location.solar_elevation, all depending on the location. -/
structure Ephem where
  risings : Loc → Time → Time → List (Option Time)
  settings : Loc → Time → Time → List (Option Time)
  altaz : Loc → Time → ℚ × ℚ
  solarElevation : Loc → Time → ℚ

/-- get_astral_event_next, skyfield_helper.py lines 54-110: search a
2-day window starting at utc_point_in_time; if no occurrence is found
(empty result, or a None leading entry) fall back to the current instant. -/
def get_astral_event_next (eph : Ephem) (loc : Loc) (ev : SunEvent)
    (utc_point_in_time : Time) : Time :=
  let t0 := utc_point_in_time
  let t1 := utc_point_in_time + 2 * 1440
  let times : List (Option Time) :=
    match ev with
    | .sunrise => eph.risings loc t0 t1
    | .sunset => eph.settings loc t0 t1
  match times with
  | [] => utc_point_in_time
  | none :: _ => utc_point_in_time
  | some t :: _ => t

/-- Python round(x, 0): round half to even. -/
def python_round (q : ℚ) : ℤ :=
  let f : ℤ := ⌊q⌋
  let r : ℚ := q - f
  if r < 1 / 2 then f
  else if 1 / 2 < r then f + 1
  else if f % 2 = 0 then f
  else f + 1

/-- get_astral_position, skyfield_helper.py lines 113-154.  The code calls
ts.now() for the evaluation instant, so the position is taken at the wall
clock of the call and the utc_point_in_time argument is ignored; both
degrees are rounded with round(x, 0). -/
def get_astral_position (eph : Ephem) (loc : Loc) (wall_clock : Time)
    (utc_point_in_time : Time) : ℚ × ℚ :=
  let t := wall_clock
  let p := eph.altaz loc t
  (((python_round p.1 : ℤ) : ℚ), ((python_round p.2 : ℤ) : ℚ))

/-- The per-body mutable record of entity.py (CelestialBody), restricted
to the fields the scheduling core reads and writes.  phase stays Option
because the code checks `if self.phase is None`. -/
structure BodyState where
  location : Loc
  next_rising : Time
  next_setting : Time
  solar_elevation : ℚ
  solar_azimuth : ℚ
  phase : Option Phase
  next_change : Time
deriving DecidableEq, Repr

/-- The phase classifier of update_events, entity.py lines 194-207. -/
def classifyPhase (elevation : ℚ) : Phase :=
  if 10 ≤ elevation then .day
  else if 0 ≤ elevation then .small_day
  else if -6 ≤ elevation then .twilight
  else if -12 ≤ elevation then .nautical_twilight
  else if -18 ≤ elevation then .astronomical_twilight
  else .night

/-- The externally visible effects of one callback run, in program order:
async_write_ha_state, the two dispatcher signals, and the timer-field
assignments at the end of update_body_position and update_events. -/
inductive Action
  | write_ha_state
  | position_changed
  | events_changed
  | drop_position_timer
  | arm_position_timer (t : Time)
  | arm_events_timer (t : Time)
deriving DecidableEq, Repr

/-- update_body_position, entity.py lines 223-257: recompute the rounded
apparent position, publish, then either go dormant (listener := None) when
now + delta * 1.25 > next_change, or arm the next run at now + delta.
Returns none when the `assert self.phase` fails. -/
def update_body_position (eph : Ephem) (s : BodyState) (now : Time) :
    Option (BodyState × List Action) :=
  let pos := get_astral_position eph s.location now now
  let s1 : BodyState := { s with solar_elevation := pos.1, solar_azimuth := pos.2 }
  match s.phase with
  | none => none
  | some ph =>
    if s.next_change < now + PHASE_UPDATES ph * (5 / 4) then
      some (s1, [.write_ha_state, .position_changed, .drop_position_timer])
    else
      some (s1, [.write_ha_state, .position_changed,
        .arm_position_timer (now + PHASE_UPDATES ph)])

/-- _check_event, entity.py lines 168-182: query the gateway and lower
_next_change when the event comes earlier.  Returns (next_utc, new
_next_change). -/
def _check_event (eph : Ephem) (loc : Loc) (ev : SunEvent)
    (utc_point_in_time : Time) (next_change : Time) : Time × Time :=
  let next_utc := get_astral_event_next eph loc ev utc_point_in_time
  (next_utc, if next_utc < next_change then next_utc else next_change)

/-- update_events, entity.py lines 184-221: reset _next_change to the
400-day sentinel, probe rising then setting, classify the phase when it is
unset from the elevation at the new _next_change, chain into
update_body_position, publish events_changed, and re-arm at _next_change. -/
def update_events (eph : Ephem) (s : BodyState) (utc_point_in_time : Time) :
    Option (BodyState × List Action) :=
  let nc0 := utc_point_in_time + 400 * 1440
  let r := _check_event eph s.location .sunrise utc_point_in_time nc0
  let st := _check_event eph s.location .sunset utc_point_in_time r.2
  let ph : Option Phase :=
    match s.phase with
    | some p => some p
    | none => some (classifyPhase (eph.solarElevation s.location st.2))
  let s1 : BodyState :=
    { s with next_rising := r.1, next_setting := st.1, phase := ph, next_change := st.2 }
  match update_body_position eph s1 utc_point_in_time with
  | none => none
  | some (s2, tr) =>
    some (s2, tr ++ [.events_changed, .arm_events_timer s2.next_change])

/-- update_location, entity.py lines 127-137, non-initial call: return
early when the resolved location is unchanged, otherwise store the new
location and force update_events. -/
def update_location (eph : Ephem) (s : BodyState) (new_loc : Loc) (now : Time) :
    Option (BodyState × List Action) :=
  if new_loc = s.location then some (s, [])
  else update_events eph { s with location := new_loc } now

/-- const.py: STATE_ABOVE_HORIZON. -/
def STATE_ABOVE_HORIZON : String := "above_horizon"

/-- const.py: STATE_BELOW_HORIZON. -/
def STATE_BELOW_HORIZON : String := "below_horizon"

/-- The state property of CelestialBody, entity.py lines 149-156. -/
def BodyState.state (s : BodyState) : String :=
  if s.solar_elevation > -(833 / 1000 : ℚ) then STATE_ABOVE_HORIZON
  else STATE_BELOW_HORIZON

/-- skyfield find_risings / find_settings search the window [t0, t1]:
every occurrence they report lies inside it.  (Only the upper bound is
needed below.) -/
def WindowBounded (eph : Ephem) : Prop :=
  (∀ loc t0 t1 t, some t ∈ eph.risings loc t0 t1 → t ≤ t1) ∧
  (∀ loc t0 t1 t, some t ∈ eph.settings loc t0 t1 → t ≤ t1)

/-! The timer layer.  entity.py stores one cancellable handle per timer
kind (_update_events_listener, _update_body_position_listener) while the
event loop keeps the scheduled callbacks alive until fired or cancelled.
The scheduler state below tracks the live scheduled callbacks of each
kind as a list of (handle id, fire time) pairs, so that an arm that
failed to cancel a live predecessor would show up as a second live
timer. -/

/-- A CelestialBody together with the event loop's live timers. -/
structure Sched where
  body : BodyState
  events_timers : List (ℕ × Time)
  pos_timers : List (ℕ × Time)
  events_handle : Option ℕ
  pos_handle : Option ℕ
  next_id : ℕ

/-- Calling a stored CALLBACK_TYPE handle: removes the scheduled callback
it points to (idempotent, no-op when none is stored). -/
def cancel_handle (timers : List (ℕ × Time)) (h : Option ℕ) : List (ℕ × Time) :=
  match h with
  | none => timers
  | some i => timers.filter (fun p => p.1 ≠ i)

/-- The event loop removes a timer when it fires. -/
def remove_timer (timers : List (ℕ × Time)) (i : ℕ) : List (ℕ × Time) :=
  timers.filter (fun p => p.1 ≠ i)

/-- Effect of one traced action on the scheduler state:
async_track_point_in_utc_time registers a fresh callback and its handle is
stored in the corresponding listener field; drop_position_timer is the
listener := None assignment of the dormant branch. -/
def apply_action (st : Sched) (a : Action) : Sched :=
  match a with
  | .write_ha_state => st
  | .position_changed => st
  | .events_changed => st
  | .drop_position_timer => { st with pos_handle := none }
  | .arm_position_timer t =>
    { st with pos_timers := st.pos_timers ++ [(st.next_id, t)],
              pos_handle := some st.next_id, next_id := st.next_id + 1 }
  | .arm_events_timer t =>
    { st with events_timers := st.events_timers ++ [(st.next_id, t)],
              events_handle := some st.next_id, next_id := st.next_id + 1 }

/-- Apply a whole trace in program order. -/
def apply_actions (st : Sched) (tr : List Action) : Sched :=
  tr.foldl apply_action st

/-- Run update_events on the scheduler: the body first cancels the stored
position handle (entity.py lines 212-213), then the trace takes effect. -/
def run_update_events (eph : Ephem) (st : Sched) (now : Time) : Option Sched :=
  match update_events eph st.body now with
  | none => none
  | some (b, tr) =>
    some (apply_actions
      { st with body := b, pos_timers := cancel_handle st.pos_timers st.pos_handle } tr)

/-- Run update_body_position on the scheduler (fired by its own timer). -/
def run_update_body_position (eph : Ephem) (st : Sched) (now : Time) : Option Sched :=
  match update_body_position eph st.body now with
  | none => none
  | some (b, tr) => some (apply_actions { st with body := b } tr)

/-- update_location when it proceeds (initial=True, or a changed
location): cancel the stored events handle, store the new location, and
force update_events. -/
def run_update_location_forced (eph : Ephem) (st : Sched) (new_loc : Loc)
    (now : Time) : Option Sched :=
  run_update_events eph
    { st with body := { st.body with location := new_loc },
              events_timers := cancel_handle st.events_timers st.events_handle } now

/-- Non-initial update_location: return early when the location is
unchanged. -/
def run_update_location (eph : Ephem) (st : Sched) (new_loc : Loc)
    (now : Time) : Option Sched :=
  if new_loc = st.body.location then some st
  else run_update_location_forced eph st new_loc now

/-- One event-loop transition: a configuration update runs
update_location, or a live timer of either kind fires (the loop removes
it, then the callback runs). -/
inductive Step (eph : Ephem) : Sched → Sched → Prop
  | location (st : Sched) (new_loc : Loc) (now : Time) (st' : Sched)
      (h : run_update_location eph st new_loc now = some st') : Step eph st st'
  | location_initial (st : Sched) (new_loc : Loc) (now : Time) (st' : Sched)
      (h : run_update_location_forced eph st new_loc now = some st') : Step eph st st'
  | fire_events (st : Sched) (i : ℕ) (t now : Time) (st' : Sched)
      (hm : (i, t) ∈ st.events_timers)
      (h : run_update_events eph
            { st with events_timers := remove_timer st.events_timers i } now
            = some st') : Step eph st st'
  | fire_pos (st : Sched) (i : ℕ) (t now : Time) (st' : Sched)
      (hm : (i, t) ∈ st.pos_timers)
      (h : run_update_body_position eph
            { st with pos_timers := remove_timer st.pos_timers i } now
            = some st') : Step eph st st'

/-- A freshly constructed CelestialBody: no timers yet, no handles. -/
def initial_sched (b : BodyState) : Sched :=
  { body := b, events_timers := [], pos_timers := [], events_handle := none,
    pos_handle := none, next_id := 0 }

/-- Scheduler states reachable from a fresh body. -/
inductive Reachable (eph : Ephem) : Sched → Prop
  | init (b : BodyState) : Reachable eph (initial_sched b)
  | step (s s' : Sched) : Reachable eph s → Step eph s s' → Reachable eph s'

/-- Every live timer's id is the one stored in the matching listener
field, and at most one timer of each kind is live. -/
def TimerInv (st : Sched) : Prop :=
  (∀ p ∈ st.events_timers, st.events_handle = some p.1) ∧
  (∀ p ∈ st.pos_timers, st.pos_handle = some p.1) ∧
  st.events_timers.length ≤ 1 ∧ st.pos_timers.length ≤ 1

/-! Concrete instances used to witness the theorems on sample inputs. -/

/-- A gateway that finds no events, reports a constant apparent position
of (45.2, 180.4) degrees and a constant predicted elevation of 20
degrees. -/
def eph0 : Ephem :=
  { risings := fun _ _ _ => []
    settings := fun _ _ _ => []
    altaz := fun _ _ => (452 / 10, 1804 / 10)
    solarElevation := fun _ _ => 20 }

/-- A sample body in phase day whose event horizon is 3 minutes away. -/
def body0 : BodyState :=
  { location := 0, next_rising := 3, next_setting := 90, solar_elevation := 0,
    solar_azimuth := 0, phase := some .day, next_change := 3 }

/-- A sample fresh body: phase not yet classified. -/
def body1 : BodyState :=
  { location := 0, next_rising := 0, next_setting := 0, solar_elevation := 0,
    solar_azimuth := 0, phase := none, next_change := 0 }

/-- A gateway whose predicted elevation is 20 degrees at location 0 and
-20 degrees elsewhere, so the classified phase depends on the location. -/
def eph5 : Ephem :=
  { risings := fun _ _ _ => []
    settings := fun _ _ _ => []
    altaz := fun _ _ => (0, 0)
    solarElevation := fun loc _ => if loc = 0 then 20 else -20 }

/-- A gateway whose apparent altitude and azimuth both equal the
evaluation instant, exposing which instant the position is taken at. -/
def eph9 : Ephem :=
  { risings := fun _ _ _ => []
    settings := fun _ _ _ => []
    altaz := fun _ t => (t, t)
    solarElevation := fun _ _ => 0 }

/-! Basic lemmas about the two callbacks. -/

/-- update_body_position only rewrites the position fields. -/
theorem update_body_position_fields (eph : Ephem) (s : BodyState) (now : Time)
    (s' : BodyState) (tr : List Action)
    (h : update_body_position eph s now = some (s', tr)) :
    s'.location = s.location ∧ s'.next_rising = s.next_rising ∧
    s'.next_setting = s.next_setting ∧ s'.phase = s.phase ∧
    s'.next_change = s.next_change := by
  cases hph : s.phase with
  | none => simp [update_body_position, hph] at h
  | some ph =>
    simp only [update_body_position, hph] at h
    split at h <;>
      (simp only [Option.some.injEq, Prod.mk.injEq] at h; cases h.1; simp [hph])

/-- The trace of update_body_position is the two publishes followed by
either the dormant marker or a single position-timer arm at now + delta. -/
theorem update_body_position_trace (eph : Ephem) (s : BodyState) (now : Time)
    (s' : BodyState) (tr : List Action)
    (h : update_body_position eph s now = some (s', tr)) :
    tr = [.write_ha_state, .position_changed, .drop_position_timer] ∨
    ∃ t, tr = [.write_ha_state, .position_changed, .arm_position_timer t] := by
  cases hph : s.phase with
  | none => simp [update_body_position, hph] at h
  | some ph =>
    simp only [update_body_position, hph] at h
    split at h <;> simp only [Option.some.injEq, Prod.mk.injEq] at h
    · exact Or.inl h.2.symm
    · exact Or.inr ⟨_, h.2.symm⟩

/-- update_body_position succeeds whenever the phase is set. -/
theorem update_body_position_total (eph : Ephem) (s : BodyState) (now : Time)
    (ph : Phase) (h : s.phase = some ph) :
    ∃ s' tr, update_body_position eph s now = some (s', tr) := by
  simp only [update_body_position, h]
  split <;> exact ⟨_, _, rfl⟩

/-- What update_events computes: location is untouched, the two events
come straight from the gateway, _next_change is the running minimum
against the 400-day sentinel, and the phase is classified (at the new
_next_change) only when previously unset. -/
theorem update_events_spec (eph : Ephem) (s : BodyState) (now : Time)
    (s' : BodyState) (tr : List Action)
    (h : update_events eph s now = some (s', tr)) :
    s'.location = s.location ∧
    s'.next_rising = get_astral_event_next eph s.location .sunrise now ∧
    s'.next_setting = get_astral_event_next eph s.location .sunset now ∧
    s'.next_change =
      (if s'.next_setting <
          (if s'.next_rising < now + 400 * 1440 then s'.next_rising
           else now + 400 * 1440)
       then s'.next_setting
       else if s'.next_rising < now + 400 * 1440 then s'.next_rising
       else now + 400 * 1440) ∧
    s'.phase =
      (match s.phase with
       | some p => some p
       | none => some (classifyPhase (eph.solarElevation s.location s'.next_change))) := by
  simp only [update_events, _check_event] at h
  cases hb : update_body_position eph
      { s with
        next_rising := get_astral_event_next eph s.location .sunrise now,
        next_setting := get_astral_event_next eph s.location .sunset now,
        phase :=
          match s.phase with
          | some p => some p
          | none => some (classifyPhase (eph.solarElevation s.location
              (if get_astral_event_next eph s.location .sunset now <
                  (if get_astral_event_next eph s.location .sunrise now < now + 400 * 1440
                   then get_astral_event_next eph s.location .sunrise now
                   else now + 400 * 1440)
               then get_astral_event_next eph s.location .sunset now
               else if get_astral_event_next eph s.location .sunrise now < now + 400 * 1440
               then get_astral_event_next eph s.location .sunrise now
               else now + 400 * 1440))),
        next_change :=
          if get_astral_event_next eph s.location .sunset now <
              (if get_astral_event_next eph s.location .sunrise now < now + 400 * 1440
               then get_astral_event_next eph s.location .sunrise now
               else now + 400 * 1440)
          then get_astral_event_next eph s.location .sunset now
          else if get_astral_event_next eph s.location .sunrise now < now + 400 * 1440
          then get_astral_event_next eph s.location .sunrise now
          else now + 400 * 1440 } now with
  | none => rw [hb] at h; simp at h
  | some p =>
    obtain ⟨s2, tr2⟩ := p
    rw [hb] at h
    simp only [Option.some.injEq, Prod.mk.injEq] at h
    obtain ⟨hs2, -⟩ := h
    cases hs2
    have hf := update_body_position_fields _ _ _ _ _ hb
    simp only at hf
    obtain ⟨hl, hr, hst, hph, hnc⟩ := hf
    exact ⟨hl, hr, hst, by rw [hr, hst]; exact hnc, by rw [hnc]; exact hph⟩

/-- update_events always succeeds: the phase it hands to
update_body_position is set in both branches of the classification. -/
theorem update_body_position_none (eph : Ephem) (s : BodyState) (now : Time)
    (h : update_body_position eph s now = none) : s.phase = none := by
  cases hph : s.phase with
  | none => rfl
  | some ph =>
    simp only [update_body_position, hph] at h
    split at h <;> simp at h

/-- update_events always succeeds: the phase it hands to
update_body_position is set in both branches of the classification. -/
theorem update_events_total (eph : Ephem) (s : BodyState) (now : Time) :
    ∃ s' tr, update_events eph s now = some (s', tr) := by
  simp only [update_events, _check_event]
  split
  · rename_i hnone
    have hp := update_body_position_none _ _ _ hnone
    cases hph : s.phase <;> simp [hph] at hp
  · exact ⟨_, _, rfl⟩

/-- The trace of update_events is the chained position-update trace,
then events_changed, then a single events-timer arm at the new
_next_change. -/
theorem update_events_trace (eph : Ephem) (s : BodyState) (now : Time)
    (s' : BodyState) (tr : List Action)
    (h : update_events eph s now = some (s', tr)) :
    ∃ tr0,
      (tr0 = [.write_ha_state, .position_changed, .drop_position_timer] ∨
       ∃ t, tr0 = [.write_ha_state, .position_changed, .arm_position_timer t]) ∧
      tr = tr0 ++ [.events_changed, .arm_events_timer s'.next_change] := by
  simp only [update_events, _check_event] at h
  split at h
  · exact absurd h (by simp)
  · rename_i s2 tr2 heq
    simp only [Option.some.injEq, Prod.mk.injEq] at h
    obtain ⟨rfl, rfl⟩ := h
    exact ⟨tr2, update_body_position_trace _ _ _ _ _ heq, rfl⟩

/-- C3: the phase classifier uses inclusive lower bounds — elevation >= 10
is day, >= 0 small_day, >= -6 twilight, >= -12 nautical_twilight, >= -18
astronomical_twilight, else night, so exactly -6 classifies as twilight —
and the per-phase recompute intervals are day 4 min, small_day 2 min,
twilight 2 min, nautical_twilight 4 min, astronomical_twilight 8 min,
night 20 min. -/
theorem phase_thresholds :
    (∀ e : ℚ, 10 ≤ e → classifyPhase e = .day) ∧
    (∀ e : ℚ, 0 ≤ e → e < 10 → classifyPhase e = .small_day) ∧
    (∀ e : ℚ, -6 ≤ e → e < 0 → classifyPhase e = .twilight) ∧
    (∀ e : ℚ, -12 ≤ e → e < -6 → classifyPhase e = .nautical_twilight) ∧
    (∀ e : ℚ, -18 ≤ e → e < -12 → classifyPhase e = .astronomical_twilight) ∧
    (∀ e : ℚ, e < -18 → classifyPhase e = .night) ∧
    classifyPhase (-6) = .twilight ∧
    PHASE_UPDATES .day = 4 ∧ PHASE_UPDATES .small_day = 2 ∧
    PHASE_UPDATES .twilight = 2 ∧ PHASE_UPDATES .nautical_twilight = 4 ∧
    PHASE_UPDATES .astronomical_twilight = 8 ∧ PHASE_UPDATES .night = 20 := by
  refine ⟨?_, ?_, ?_, ?_, ?_, ?_, ?_, by norm_num [PHASE_UPDATES],
    by norm_num [PHASE_UPDATES], by norm_num [PHASE_UPDATES],
    by norm_num [PHASE_UPDATES], by norm_num [PHASE_UPDATES],
    by norm_num [PHASE_UPDATES]⟩
  · intro e h
    simp only [classifyPhase]
    split_ifs <;> first | rfl | linarith
  · intro e h1 h2
    simp only [classifyPhase]
    split_ifs <;> first | rfl | linarith
  · intro e h1 h2
    simp only [classifyPhase]
    split_ifs <;> first | rfl | linarith
  · intro e h1 h2
    simp only [classifyPhase]
    split_ifs <;> first | rfl | linarith
  · intro e h1 h2
    simp only [classifyPhase]
    split_ifs <;> first | rfl | linarith
  · intro e h
    simp only [classifyPhase]
    split_ifs <;> first | rfl | linarith
  · simp only [classifyPhase]
    norm_num

/-- Witness for C3 at the boundary input -6. -/
theorem phase_thresholds_witness : classifyPhase (-6) = Phase.twilight :=
  phase_thresholds.2.2.1 (-6) (by norm_num) (by norm_num)

/-- C10: the public entity state is above_horizon exactly when
solar_elevation > -0.833 degrees, and below_horizon otherwise. -/
theorem state_above_horizon_iff (s : BodyState) :
    (s.state = STATE_ABOVE_HORIZON ↔ s.solar_elevation > -(833 / 1000 : ℚ)) ∧
    (s.state = STATE_BELOW_HORIZON ↔ ¬ s.solar_elevation > -(833 / 1000 : ℚ)) := by
  by_cases h : s.solar_elevation > -(833 / 1000 : ℚ) <;>
    simp [BodyState.state, h, STATE_ABOVE_HORIZON, STATE_BELOW_HORIZON]

/-- C2: update_body_position goes dormant (arms no position timer)
exactly when now + delta * 1.25 > next_change, where delta is the current
phase's interval; otherwise it arms its next run at now + delta. -/
theorem update_body_position_arming (eph : Ephem) (s : BodyState) (now : Time)
    (ph : Phase) (hph : s.phase = some ph) :
    ∃ s' tr, update_body_position eph s now = some (s', tr) ∧
      (now + PHASE_UPDATES ph * (5 / 4) > s.next_change →
        ∀ t, Action.arm_position_timer t ∉ tr) ∧
      (¬ now + PHASE_UPDATES ph * (5 / 4) > s.next_change →
        Action.arm_position_timer (now + PHASE_UPDATES ph) ∈ tr) := by
  simp only [update_body_position, hph]
  split
  · refine ⟨_, _, rfl, fun _ t => by simp, fun hc => absurd (by assumption) hc⟩
  · refine ⟨_, _, rfl, fun hc _ => absurd hc (by assumption), fun _ => by simp⟩

/-- Witness for C2: phase day (4-minute interval) with next_change 3
minutes away arms no position timer, since 4 * 1.25 = 5 > 3. -/
theorem update_body_position_arming_witness :
    ((0 : ℚ) + PHASE_UPDATES .day * (5 / 4) > body0.next_change) ∧
    ∃ s' tr, update_body_position eph0 body0 0 = some (s', tr) ∧
      ∀ t, Action.arm_position_timer t ∉ tr := by
  refine ⟨by norm_num [PHASE_UPDATES, body0], ?_⟩
  obtain ⟨s', tr, heq, h1, h2⟩ := update_body_position_arming eph0 body0 0 .day rfl
  exact ⟨s', tr, heq, h1 (by norm_num [PHASE_UPDATES, body0])⟩

/-- C7: every run of update_events publishes position_changed (inside the
chained position update), then events_changed, and only after that arms
its own next timer. -/
theorem events_changed_after_position (eph : Ephem) (s : BodyState) (now : Time)
    (s' : BodyState) (tr : List Action)
    (h : update_events eph s now = some (s', tr)) :
    ∃ i j k : ℕ, i < j ∧ j < k ∧
      tr[i]? = some .position_changed ∧
      tr[j]? = some .events_changed ∧
      tr[k]? = some (.arm_events_timer s'.next_change) := by
  obtain ⟨tr0, h0, rfl⟩ := update_events_trace eph s now s' tr h
  refine ⟨1, 3, 4, by norm_num, by norm_num, ?_, ?_, ?_⟩ <;>
    rcases h0 with rfl | ⟨t, rfl⟩ <;> rfl

/-- Witness for C7 on a sample body. -/
theorem events_changed_after_position_witness :
    ∃ s' tr, update_events eph0 body0 0 = some (s', tr) ∧
      ∃ i j k : ℕ, i < j ∧ j < k ∧
        tr[i]? = some Action.position_changed ∧
        tr[j]? = some Action.events_changed ∧
        tr[k]? = some (Action.arm_events_timer s'.next_change) := by
  obtain ⟨s', tr, h⟩ := update_events_total eph0 body0 0
  exact ⟨s', tr, h, events_changed_after_position eph0 body0 0 s' tr h⟩

/-- C8: running update_events twice with the same instant and unchanged
location leaves next_rising, next_setting and phase identical after the
second run. -/
theorem update_events_idempotent (eph : Ephem) (s : BodyState) (now : Time)
    (s1 s2 : BodyState) (tr1 tr2 : List Action)
    (h1 : update_events eph s now = some (s1, tr1))
    (h2 : update_events eph s1 now = some (s2, tr2)) :
    s2.next_rising = s1.next_rising ∧ s2.next_setting = s1.next_setting ∧
    s2.phase = s1.phase := by
  obtain ⟨l1, r1, st1, nc1, ph1⟩ := update_events_spec _ _ _ _ _ h1
  obtain ⟨l2, r2, st2, nc2, ph2⟩ := update_events_spec _ _ _ _ _ h2
  refine ⟨by rw [r2, l1, r1], by rw [st2, l1, st1], ?_⟩
  have hq : ∃ q, s1.phase = some q := by
    cases hph : s.phase <;> simp [ph1, hph]
  obtain ⟨q, hq⟩ := hq
  rw [ph2, hq]

/-- Witness for C8 on a sample body. -/
theorem update_events_idempotent_witness :
    ∃ s1 tr1 s2 tr2,
      update_events eph0 body0 0 = some (s1, tr1) ∧
      update_events eph0 s1 0 = some (s2, tr2) ∧
      s2.next_rising = s1.next_rising ∧ s2.next_setting = s1.next_setting ∧
      s2.phase = s1.phase := by
  obtain ⟨s1, tr1, h1⟩ := update_events_total eph0 body0 0
  obtain ⟨s2, tr2, h2⟩ := update_events_total eph0 s1 0
  exact ⟨s1, tr1, s2, tr2, h1, h2,
    update_events_idempotent eph0 body0 0 s1 s2 tr1 tr2 h1 h2⟩

/-- A window-bounded gateway never reports an event after the end of its
2-day search window (the fallback branch reports the search start). -/
theorem get_astral_event_next_le (eph : Ephem) (hw : WindowBounded eph)
    (loc : Loc) (ev : SunEvent) (now : Time) :
    get_astral_event_next eph loc ev now ≤ now + 2 * 1440 := by
  cases ev with
  | sunrise =>
    rcases hl : eph.risings loc now (now + 2 * 1440) with _ | ⟨ho, tl⟩
    · simp [get_astral_event_next, hl]
    · cases ho with
      | none => simp [get_astral_event_next, hl]
      | some t =>
        have hb := hw.1 loc now (now + 2 * 1440) t
          (by rw [hl]; exact List.mem_cons_self _ _)
        simpa [get_astral_event_next, hl] using hb
  | sunset =>
    rcases hl : eph.settings loc now (now + 2 * 1440) with _ | ⟨ho, tl⟩
    · simp [get_astral_event_next, hl]
    · cases ho with
      | none => simp [get_astral_event_next, hl]
      | some t =>
        have hb := hw.2 loc now (now + 2 * 1440) t
          (by rw [hl]; exact List.mem_cons_self _ _)
        simpa [get_astral_event_next, hl] using hb

/-- C1: immediately after update_events, _next_change equals the minimum
of next_rising and next_setting (the gateway's bounded 2-day window keeps
both events far below the 400-day sentinel). -/
theorem next_change_eq_min (eph : Ephem) (hw : WindowBounded eph)
    (s : BodyState) (now : Time) (s' : BodyState) (tr : List Action)
    (h : update_events eph s now = some (s', tr)) :
    s'.next_change = min s'.next_rising s'.next_setting := by
  obtain ⟨-, r, st, nc, -⟩ := update_events_spec _ _ _ _ _ h
  have hr : s'.next_rising ≤ now + 2 * 1440 := by
    rw [r]; exact get_astral_event_next_le eph hw _ _ _
  have hlt : s'.next_rising < now + 400 * 1440 := by linarith
  rw [nc]
  simp only [if_pos hlt]
  rcases lt_or_le s'.next_setting s'.next_rising with hc | hc
  · rw [if_pos hc, min_eq_right hc.le]
  · rw [if_neg (not_lt.mpr hc), min_eq_left hc]

/-- Witness for C1 with a gateway that finds no events. -/
theorem next_change_eq_min_witness :
    ∃ s' tr, update_events eph0 body0 0 = some (s', tr) ∧
      s'.next_change = min s'.next_rising s'.next_setting := by
  obtain ⟨s', tr, h⟩ := update_events_total eph0 body0 0
  refine ⟨s', tr, h, next_change_eq_min eph0 ?_ body0 0 s' tr h⟩
  constructor <;> intro loc t0 t1 t hmem <;> simp [eph0] at hmem

/-- C4: when the gateway's 2-day search finds no rising (or setting) —
an empty result list or a None leading entry — get_astral_event_next
falls back to the current instant, and update_events keeps operating with
that value as next_rising (or next_setting). -/
theorem no_event_fallback (eph : Ephem) (s : BodyState) (now : Time) :
    ((eph.risings s.location now (now + 2 * 1440)).head? = none ∨
        (eph.risings s.location now (now + 2 * 1440)).head? = some none →
      get_astral_event_next eph s.location .sunrise now = now ∧
      ∀ s' tr, update_events eph s now = some (s', tr) → s'.next_rising = now) ∧
    ((eph.settings s.location now (now + 2 * 1440)).head? = none ∨
        (eph.settings s.location now (now + 2 * 1440)).head? = some none →
      get_astral_event_next eph s.location .sunset now = now ∧
      ∀ s' tr, update_events eph s now = some (s', tr) → s'.next_setting = now) := by
  constructor
  · intro hcase
    have hg : get_astral_event_next eph s.location .sunrise now = now := by
      rcases hl : eph.risings s.location now (now + 2 * 1440) with _ | ⟨ho, tl⟩
      · simp [get_astral_event_next, hl]
      · rw [hl] at hcase
        cases ho with
        | none => simp [get_astral_event_next, hl]
        | some t => simp at hcase
    refine ⟨hg, fun s' tr h => ?_⟩
    obtain ⟨-, r, -, -, -⟩ := update_events_spec _ _ _ _ _ h
    rw [r, hg]
  · intro hcase
    have hg : get_astral_event_next eph s.location .sunset now = now := by
      rcases hl : eph.settings s.location now (now + 2 * 1440) with _ | ⟨ho, tl⟩
      · simp [get_astral_event_next, hl]
      · rw [hl] at hcase
        cases ho with
        | none => simp [get_astral_event_next, hl]
        | some t => simp at hcase
    refine ⟨hg, fun s' tr h => ?_⟩
    obtain ⟨-, -, st, -, -⟩ := update_events_spec _ _ _ _ _ h
    rw [st, hg]

/-- Witness for C4: a gateway that never finds a rising. -/
theorem no_event_fallback_witness :
    get_astral_event_next eph0 body0.location SunEvent.sunrise 0 = 0 ∧
    ∃ s' tr, update_events eph0 body0 0 = some (s', tr) ∧ s'.next_rising = 0 := by
  have hm := (no_event_fallback eph0 body0 0).1 (Or.inl (by simp [eph0]))
  obtain ⟨s', tr, h⟩ := update_events_total eph0 body0 0
  exact ⟨hm.1, s', tr, h, hm.2 s' tr h⟩

/-- C5 (amended): update_events classifies the phase only when it is
unset — which happens on a fresh body, since nothing ever resets it —
using the elevation predicted at the new _next_change, not at now; an
already-set phase survives update_events, and a location change forces
update_events but does not reset or reclassify the phase. -/
theorem phase_classified_only_when_unset (eph : Ephem) (s : BodyState) (now : Time) :
    (s.phase = none →
      ∀ s' tr, update_events eph s now = some (s', tr) →
        s'.phase = some (classifyPhase (eph.solarElevation s.location s'.next_change))) ∧
    (∀ p, s.phase = some p →
      ∀ s' tr, update_events eph s now = some (s', tr) → s'.phase = some p) ∧
    (∀ p new_loc, s.phase = some p →
      ∀ s' tr, update_location eph s new_loc now = some (s', tr) → s'.phase = some p) := by
  refine ⟨?_, ?_, ?_⟩
  · intro hph s' tr h
    obtain ⟨-, -, -, -, ph⟩ := update_events_spec _ _ _ _ _ h
    rw [ph, hph]
  · intro p hph s' tr h
    obtain ⟨-, -, -, -, ph⟩ := update_events_spec _ _ _ _ _ h
    rw [ph, hph]
  · intro p new_loc hph s' tr h
    unfold update_location at h
    split at h
    · simp only [Option.some.injEq, Prod.mk.injEq] at h
      obtain ⟨heq, -⟩ := h
      rw [← heq]
      exact hph
    · obtain ⟨-, -, -, -, ph⟩ := update_events_spec _ _ _ _ _ h
      rw [ph]
      simp [hph]

/-- Witness for C5 (amended): a fresh body's phase is classified from the
elevation predicted at the new _next_change. -/
theorem phase_classified_only_when_unset_witness :
    ∃ s' tr, update_events eph5 body1 0 = some (s', tr) ∧
      s'.phase = some (classifyPhase (eph5.solarElevation body1.location s'.next_change)) := by
  obtain ⟨s', tr, h⟩ := update_events_total eph5 body1 0
  exact ⟨s', tr, h, (phase_classified_only_when_unset eph5 body1 0).1 rfl s' tr h⟩

/-- C5 counterexample: a forced location change (from location 0 to 1)
runs update_events but keeps the previously classified phase day, even
though classification at the new location's predicted elevation would
give night — the phase is never reset, so no reclassification happens. -/
theorem location_change_keeps_phase :
    ∃ s' tr, update_location eph5 body0 1 0 = some (s', tr) ∧
      s'.phase = some Phase.day ∧
      classifyPhase (eph5.solarElevation s'.location s'.next_change) = Phase.night := by
  obtain ⟨s', tr, h⟩ := update_events_total eph5 { body0 with location := 1 } 0
  obtain ⟨l, -, -, -, ph⟩ := update_events_spec _ _ _ _ _ h
  refine ⟨s', tr, ?_, ?_, ?_⟩
  · rw [update_location, if_neg (by simp [body0])]
    exact h
  · rw [ph]
    simp [body0]
  · rw [l]
    norm_num [eph5, classifyPhase]

/-- C9: get_astral_position evaluates the apparent position at the wall
clock of the call (the code uses ts.now()), not at the utc_point_in_time
argument it is given: with a gateway whose altitude and azimuth both
equal the evaluation instant, a call at wall clock 100 with
utc_point_in_time 50 yields the rounded position for instant 100, not the
one for instant 50. -/
theorem position_ignores_passed_instant :
    get_astral_position eph9 0 100 50 = (100, 100) ∧
    ((python_round (eph9.altaz 0 50).1 : ℤ) : ℚ) = 50 ∧
    get_astral_position eph9 0 100 50 ≠
      (((python_round (eph9.altaz 0 50).1 : ℤ) : ℚ),
       ((python_round (eph9.altaz 0 50).2 : ℤ) : ℚ)) := by
  have h100 : python_round 100 = 100 := by
    norm_num [python_round]
  have h50 : python_round 50 = 50 := by
    norm_num [python_round]
  refine ⟨?_, ?_, ?_⟩
  · simp [get_astral_position, eph9, h100]
  · simp [eph9, h50]
  · simp [get_astral_position, eph9, h100, h50]

/-! Lemmas for the timer invariant. -/

/-- Filtering away an id that every live timer carries empties the list. -/
theorem filter_ne_empty (timers : List (ℕ × Time)) (i : ℕ)
    (hall : ∀ p ∈ timers, p.1 = i) :
    timers.filter (fun p => p.1 ≠ i) = [] := by
  rw [List.filter_eq_nil_iff]
  intro a ha
  simp [hall a ha]

/-- Cancelling through a handle that covers every live timer empties the
list. -/
theorem cancel_handle_all (timers : List (ℕ × Time)) (h : Option ℕ)
    (hc : ∀ p ∈ timers, h = some p.1) : cancel_handle timers h = [] := by
  cases h with
  | none =>
    cases timers with
    | nil => rfl
    | cons a tl => exact absurd (hc a (List.mem_cons_self a tl)) (by simp)
  | some i =>
    exact filter_ne_empty timers i fun p hp => (Option.some.inj (hc p hp)).symm

/-- Firing the covered timer empties the list. -/
theorem remove_timer_all (timers : List (ℕ × Time)) (h : Option ℕ) (i : ℕ)
    (t : Time) (hc : ∀ p ∈ timers, h = some p.1) (hm : (i, t) ∈ timers) :
    remove_timer timers i = [] := by
  have hi : h = some i := hc (i, t) hm
  exact filter_ne_empty timers i fun p hp => by
    have hp' := hc p hp
    rw [hi] at hp'
    exact (Option.some.inj hp').symm

/-- Running update_events from a state with no live events timer and a
coherent position handle re-establishes the timer invariant. -/
theorem run_update_events_inv (eph : Ephem) (st : Sched) (now : Time)
    (st' : Sched) (he : st.events_timers = [])
    (hp : ∀ p ∈ st.pos_timers, st.pos_handle = some p.1)
    (h : run_update_events eph st now = some st') : TimerInv st' := by
  unfold run_update_events at h
  split at h
  · exact absurd h (by simp)
  · rename_i b tr heq
    simp only [Option.some.injEq] at h
    subst h
    obtain ⟨tr0, h0, rfl⟩ := update_events_trace _ _ _ _ _ heq
    have hcp : cancel_handle st.pos_timers st.pos_handle = [] :=
      cancel_handle_all _ _ hp
    rcases h0 with rfl | ⟨t, rfl⟩ <;>
      simp [TimerInv, apply_actions, apply_action, he, hcp]

/-- Running update_body_position from a state with no live position timer
and a coherent, at-most-one events side preserves the timer invariant. -/
theorem run_update_body_position_inv (eph : Ephem) (st : Sched) (now : Time)
    (st' : Sched) (hpe : st.pos_timers = [])
    (hec : ∀ p ∈ st.events_timers, st.events_handle = some p.1)
    (hel : st.events_timers.length ≤ 1)
    (h : run_update_body_position eph st now = some st') : TimerInv st' := by
  unfold run_update_body_position at h
  split at h
  · exact absurd h (by simp)
  · rename_i b tr heq
    simp only [Option.some.injEq] at h
    subst h
    obtain h0 | ⟨t, h0⟩ := update_body_position_trace _ _ _ _ _ heq <;> subst h0 <;>
      simp [TimerInv, apply_actions, apply_action, hpe] <;>
      exact ⟨fun a b hab => hec (a, b) hab, hel⟩

/-- Running a forced update_location re-establishes the timer invariant
from coherent handles. -/
theorem run_update_location_forced_inv (eph : Ephem) (st : Sched)
    (new_loc : Loc) (now : Time) (st' : Sched)
    (hce : ∀ p ∈ st.events_timers, st.events_handle = some p.1)
    (hcp : ∀ p ∈ st.pos_timers, st.pos_handle = some p.1)
    (h : run_update_location_forced eph st new_loc now = some st') :
    TimerInv st' := by
  unfold run_update_location_forced at h
  exact run_update_events_inv eph
    { st with body := { st.body with location := new_loc },
              events_timers := cancel_handle st.events_timers st.events_handle }
    now _ (cancel_handle_all _ _ hce) hcp h

/-- One event-loop transition preserves the timer invariant. -/
theorem step_preserves_inv (eph : Ephem) (s s' : Sched) (hi : TimerInv s)
    (h : Step eph s s') : TimerInv s' := by
  obtain ⟨hce, hcp, hle, hlp⟩ := hi
  cases h with
  | location new_loc now x hrun =>
    unfold run_update_location at hrun
    split at hrun
    · simp only [Option.some.injEq] at hrun
      subst hrun
      exact ⟨hce, hcp, hle, hlp⟩
    · exact run_update_location_forced_inv eph s new_loc now _ hce hcp hrun
  | location_initial new_loc now x hrun =>
    exact run_update_location_forced_inv eph s new_loc now _ hce hcp hrun
  | fire_events i t now x hm hrun =>
    exact run_update_events_inv eph
      { s with events_timers := remove_timer s.events_timers i } now _
      (remove_timer_all _ _ i t hce hm) hcp hrun
  | fire_pos i t now x hm hrun =>
    exact run_update_body_position_inv eph
      { s with pos_timers := remove_timer s.pos_timers i } now _
      (remove_timer_all _ _ i t hcp hm) hce hle hrun

/-- The timer invariant holds in every reachable scheduler state. -/
theorem reachable_timer_inv (eph : Ephem) (st : Sched) (h : Reachable eph st) :
    TimerInv st := by
  induction h with
  | init b => exact ⟨by simp [initial_sched], by simp [initial_sched],
      by simp [initial_sched], by simp [initial_sched]⟩
  | step s s' hr hs ih => exact step_preserves_inv eph s s' ih hs

/-- C6: in every reachable state, each body has at most one live
event-recomputation timer and at most one live position-recomputation
timer, and every live timer is the one the stored handle points to (so a
re-arm never leaves an uncancelled predecessor behind). -/
theorem at_most_one_live_timer (eph : Ephem) (st : Sched)
    (h : Reachable eph st) :
    st.events_timers.length ≤ 1 ∧ st.pos_timers.length ≤ 1 ∧
    (∀ p ∈ st.events_timers, st.events_handle = some p.1) ∧
    (∀ p ∈ st.pos_timers, st.pos_handle = some p.1) := by
  obtain ⟨a, b, c, d⟩ := reachable_timer_inv eph st h
  exact ⟨c, d, a, b⟩

/-- Witness for C6 at a concrete reachable state. -/
theorem at_most_one_live_timer_witness :
    (initial_sched body0).events_timers.length ≤ 1 ∧
    (initial_sched body0).pos_timers.length ≤ 1 ∧
    (∀ p ∈ (initial_sched body0).events_timers,
      (initial_sched body0).events_handle = some p.1) ∧
    (∀ p ∈ (initial_sched body0).pos_timers,
      (initial_sched body0).pos_handle = some p.1) :=
  at_most_one_live_timer eph0 (initial_sched body0) (Reachable.init body0)

end SkyTonight
